import Mathlib

/-!
Shallow embedding of the power-state subsystem of `ov/power_state.go`
(package `ov` of the oneview-golang repository).

Modelling conventions:
* Go machine integers (`int`) become `Int`; no arithmetic here overflows.
* Go errors become `Except GoError α` with `GoError := String`.
* A Go panic (out-of-range array indexing) is modelled as `Option`:
  `none` means the operation panics instead of returning.
* The external collaborators (hardware lookup, generic REST transport,
  JSON decoding) are out of scope per the specification and are supplied
  as an explicit environment `Env`.
* Observable effects (REST calls issued, log lines emitted) are collected
  in an event trace `List Event`; a log event records only its level,
  since message formatting is out of scope.
* Struct types `ServerHardware` and `Task`, the constant `T_COMPLETED`
  and the REST method vocabulary live in other files of the repository
  that are not under `src/`; they are modelled from the spec and marked
  as such in their doc comments.
-/

set_option autoImplicit false

namespace OV

abbrev GoError := String

/-- REST methods used by the subsystem (`rest.PUT`, `rest.GET`).
Modelled from the spec: the `rest` package is not under `src/`. -/
inductive RestMethod where
  | PUT
  | GET
deriving DecidableEq, Repr

/-- Log levels of the logging sink (`log.Debugf`, `log.Infof`,
`log.Warnf`, `log.Errorf`). A trace records only the level. -/
inductive LogLevel where
  | debug
  | info
  | warn
  | error
deriving DecidableEq, Repr

/-- Modelled from the spec: the hardware unit (`ServerHardware`, defined
elsewhere in the repository, not under `src/`): identifier URI, display
name, serial number and the last-known free-form power-state string. The
remote-call capability (`Client` field) is externalized into `Env`. -/
structure ServerHardware where
  URI : String
  Name : String
  SerialNumber : String
  PowerState : String
deriving DecidableEq, Repr

/-- Modelled from the spec: the remote task handle (`Task`, defined
elsewhere in the repository, not under `src/`): identifier URI, display
name, owner, free-form lifecycle state, progress status string and a
percent-complete value. -/
structure Task where
  URI : String
  Name : String
  Owner : String
  TaskState : String
  TaskStatus : String
  ComputedPercentComplete : Int
deriving DecidableEq, Repr

/-- Go `strings.ToUpper`, character by character. It agrees with the Go
function on ASCII strings, which covers every comparison made here
(`On`, `Off`, `Completed` against remote status strings). -/
def stringsToUpper (s : String) : String :=
  String.mk (s.data.map Char.toUpper)

/-- Modelled from the spec: the task lifecycle completion marker
`T_COMPLETED` (defined in the task module of the repository, not under
`src/`) has an `Equal` method comparing a lifecycle string
case-insensitively against the literal `Completed`. -/
def T_COMPLETED_Equal (s : String) : Bool :=
  stringsToUpper s == stringsToUpper "Completed"

/-- Body of the power change request (`PowerRequest`). -/
structure PowerRequest where
  PowerState : String
  PowerControl : String
deriving DecidableEq, Repr

/-- One observable event: a REST call issued through the transport, or a
log line emitted at some level. -/
inductive Event where
  | rest (method : RestMethod) (uri : String) (body : Option PowerRequest)
  | log (lvl : LogLevel)
deriving DecidableEq, Repr

/-- REST calls contained in a trace, in order. -/
def restCalls : List Event → List (RestMethod × String × Option PowerRequest)
  | [] => []
  | Event.rest m u b :: es => (m, u, b) :: restCalls es
  | Event.log _ :: es => restCalls es

/-- Environment of external collaborators: hardware lookup
(`Client.GetServerHardware`), generic transport (`Client.RestAPICall`,
whose body argument here is either a `PowerRequest` or `nil`), and JSON
decoding of a response into an existing `Task` value (`json.Unmarshal`
with a pointer to the current task). All are out of scope per the spec. -/
structure Env where
  getServerHardware : String → Except GoError ServerHardware
  restAPICall : RestMethod → String → Option PowerRequest → Except GoError String
  unmarshalTask : String → Task → Except GoError Task

/-- Go `type PowerState int`. -/
abbrev PowerState := Int

def P_ON : PowerState := 1
def P_OFF : PowerState := 2
def P_UKNOWN : PowerState := 3

/-- Go `var powerstates = [...]string {"On", "Off", "UNKNOWN"}`. -/
def powerstates : List String := ["On", "Off", "UNKNOWN"]

/-- Go `func (p PowerState) String() string { return powerstates[p-1] }`.
Indexing with a negative index or one at or beyond the array length
panics, modelled as `none`. -/
def PowerState.Str (p : PowerState) : Option String :=
  if 1 ≤ p then powerstates.get? (p - 1).toNat else none

/-- Go `func (p PowerState) Equal(s string) bool`: case-insensitive
comparison of `s` against `p.String()`; panics (is `none`) exactly when
`p.String()` panics. -/
def PowerState.Equal (p : PowerState) (s : String) : Option Bool :=
  (PowerState.Str p).map (fun ps => stringsToUpper s == stringsToUpper ps)

/-- Go `type PowerControl int`. -/
abbrev PowerControl := Int

def P_COLDBOOT : PowerControl := 1
def P_MOMPRESS : PowerControl := 2
def P_RESET : PowerControl := 3

/-- Go `var powercontrols = [...]string {"ColdBoot", "MomentaryPress", "Reset"}`. -/
def powercontrols : List String := ["ColdBoot", "MomentaryPress", "Reset"]

/-- Go `func (pc PowerControl) String() string { return powercontrols[pc-1] }`,
with out-of-range indexing modelled as `none`. -/
def PowerControl.Str (pc : PowerControl) : Option String :=
  if 1 ≤ pc then powercontrols.get? (pc - 1).toNat else none

/-- The `PowerTask` struct: hardware unit reference, last observed power
state, completion flag, current remote task handle and timing
parameters. `WaitTime` (a `time.Duration`) is kept as `Int`; it only
feeds `time.Sleep`, which has no observable effect in this embedding. -/
structure PowerTask where
  Blade : ServerHardware
  State : PowerState
  TaskStatus : Bool
  CurrentTask : Task
  Timeout : Int
  WaitTime : Int
deriving DecidableEq, Repr

/-- The zero-valued task handle `Task{URI: "", Name: "", Owner: ""}`
(the remaining fields take their Go zero values). -/
def emptyTask : Task :=
  { URI := "", Name := "", Owner := "", TaskState := "", TaskStatus := ""
    ComputedPercentComplete := 0 }

/-- Go `NewPowerTask`: fresh manager for hardware unit `b`. -/
def NewPowerTask (b : ServerHardware) : PowerTask :=
  { Blade := b, State := P_UKNOWN, TaskStatus := false
    CurrentTask := emptyTask, Timeout := 36, WaitTime := 10 }

/-- Go `ResetTask`: unconditionally reset state, completion flag and
task handle. -/
def ResetTask (pt : PowerTask) : PowerTask :=
  { pt with State := P_UKNOWN, TaskStatus := false, CurrentTask := emptyTask }

/-- The error returned for a missing hardware reference (the
`MissingHardwareReference` condition of the spec); the message is the
literal from the source, written with an escaped apostrophe. -/
def missingBladeErr : GoError := "Can\x27t get power on blade without hardware"

/-- Go `GetCurrentPowerState`: fail early on an empty blade URI, look up
the hardware, classify its power-state string case-insensitively and
store the refreshed blade. Returns the updated task, the Go error result
and the event trace; the outer `Option` is panic propagation from
`PowerState.Equal` (which in fact never panics here, since it is only
applied to `P_OFF` and `P_ON`). -/
def GetCurrentPowerState (env : Env) (pt : PowerTask) :
    Option (PowerTask × Except GoError Unit × List Event) :=
  if pt.Blade.URI = "" then
    some ({ pt with State := P_UKNOWN }, Except.error missingBladeErr, [])
  else
    match env.getServerHardware pt.Blade.URI with
    | Except.error e => some (pt, Except.error e, [])
    | Except.ok b =>
      match PowerState.Equal P_OFF b.PowerState with
      | none => none
      | some offEq =>
        if offEq then
          some ({ pt with State := P_OFF, Blade := b }, Except.ok (),
                [Event.log LogLevel.debug])
        else
          match PowerState.Equal P_ON b.PowerState with
          | none => none
          | some onEq =>
            if onEq then
              some ({ pt with State := P_ON, Blade := b }, Except.ok (),
                    [Event.log LogLevel.debug])
            else
              some ({ pt with State := P_UKNOWN, Blade := b }, Except.ok (),
                    [Event.log LogLevel.debug, Event.log LogLevel.warn])

/-- Go `SubmitPowerState`: query the fresh power state (on failure just
log and return), and if the observed state differs from the target `s`
issue one PUT of `{powerState: s.String(), powerControl:
P_MOMPRESS.String()}` to `<blade-uri>/powerState`, decoding the response
into the current task handle; transport and decode failures set the
completion flag and are only logged. If the observed state equals the
target, only set the completion flag. The outer `Option` is panic
propagation (`s.String()` panics on an out-of-range target). -/
def SubmitPowerState (env : Env) (pt : PowerTask) (s : PowerState) :
    Option (PowerTask × List Event) :=
  match GetCurrentPowerState env pt with
  | none => none
  | some (pt1, Except.error _, evs) =>
    some (pt1, evs ++ [Event.log LogLevel.error])
  | some (pt1, Except.ok _, evs) =>
    if s ≠ pt1.State then
      -- log.Infof formats s through fmt, which recovers a String() panic,
      -- so the log line itself is total.
      let evs1 := evs ++ [Event.log LogLevel.info]
      match PowerState.Str s, PowerControl.Str P_MOMPRESS with
      | some sStr, some pcStr =>
        let body : PowerRequest := { PowerState := sStr, PowerControl := pcStr }
        let uri := String.join [pt1.Blade.URI, "/powerState"]
        let evs2 := evs1 ++ [Event.log LogLevel.debug, Event.log LogLevel.debug]
        match env.restAPICall RestMethod.PUT uri (some body) with
        | Except.error _ =>
          some ({ pt1 with TaskStatus := true },
                evs2 ++ [Event.rest RestMethod.PUT uri (some body),
                         Event.log LogLevel.error])
        | Except.ok data =>
          let evs3 := evs2 ++ [Event.rest RestMethod.PUT uri (some body),
                               Event.log LogLevel.debug]
          match env.unmarshalTask data pt1.CurrentTask with
          | Except.error _ =>
            some ({ pt1 with TaskStatus := true },
                  evs3 ++ [Event.log LogLevel.error])
          | Except.ok t =>
            some ({ pt1 with CurrentTask := t }, evs3)
      | _, _ => none
    else
      some ({ pt1 with TaskStatus := true }, evs ++ [Event.log LogLevel.info])

/-- Go `GetCurrentTaskStatus`: with an empty current-task URI this only
logs; otherwise it issues a GET to the task URI and decodes the response
into the task handle in place, propagating transport and decode errors. -/
def GetCurrentTaskStatus (env : Env) (pt : PowerTask) :
    PowerTask × Except GoError Unit × List Event :=
  let evs0 := [Event.log LogLevel.debug]
  let uri := pt.CurrentTask.URI
  if uri ≠ "" then
    match env.restAPICall RestMethod.GET uri none with
    | Except.error e =>
      (pt, Except.error e, evs0 ++ [Event.rest RestMethod.GET uri none])
    | Except.ok data =>
      let evs1 := evs0 ++ [Event.rest RestMethod.GET uri none,
                           Event.log LogLevel.debug]
      match env.unmarshalTask data pt.CurrentTask with
      | Except.error e => (pt, Except.error e, evs1)
      | Except.ok t => ({ pt with CurrentTask := t }, Except.ok (), evs1)
  else
    (pt, Except.ok (), evs0 ++ [Event.log LogLevel.debug])

/-- Result of the polling loop of `PowerExecutor`: final task value,
final value of the local counter `currenttime`, Go error result, event
trace and the number of loop iterations entered. -/
structure LoopResult where
  pt : PowerTask
  currenttime : Int
  result : Except GoError Unit
  trace : List Event
  iterations : Nat
deriving Repr

/-- Writes of the concurrently running `SubmitPowerState` goroutine are
modelled as an arbitrary interference function applied to the shared
`PowerTask` before each loop-condition check. The goroutine writes only
`Blade`, `State`, `TaskStatus` and `CurrentTask`; it never writes the
timing parameters, which is enforced here by restoring them. -/
def applyInterference (f : PowerTask → PowerTask) (pt : PowerTask) : PowerTask :=
  let q := f pt
  { q with Timeout := pt.Timeout, WaitTime := pt.WaitTime }

/-- The polling loop of Go `PowerExecutor`:
`for !pt.TaskStatus && (currenttime < pt.Timeout) { ... currenttime++ }`.
`T` is `pt.Timeout`, which nothing writes during the loop. The `fuel`
parameter only makes the recursion structural: `PowerExecutor` passes
`T.toNat`, and since every iteration requires `currenttime < T` and
increments `currenttime`, fuel at least `(T - currenttime).toNat` is
never exhausted (`powerLoop_fuel_ge` below makes this exact). The
per-iteration environment `envs` lets remote responses differ between
polls; `time.Sleep` has no observable effect and is omitted. -/
def powerLoop (envs : Nat → Env) (interfere : Nat → PowerTask → PowerTask)
    (T : Int) : Nat → Int → PowerTask → LoopResult
  | fuel, currenttime, pt0 =>
    let pt := applyInterference (interfere currenttime.toNat) pt0
    if pt.TaskStatus = false ∧ currenttime < T then
      match fuel with
      | 0 => { pt := pt, currenttime := currenttime, result := Except.ok ()
               trace := [], iterations := 0 }
      | Nat.succ fuel =>
        match GetCurrentTaskStatus (envs currenttime.toNat) pt with
        | (pt1, Except.error e, evs1) =>
          { pt := pt1, currenttime := currenttime, result := Except.error e
            trace := evs1, iterations := 1 }
        | (pt1, Except.ok _, evs1) =>
          let pt2 := if pt1.CurrentTask.URI ≠ "" ∧
                        T_COMPLETED_Equal pt1.CurrentTask.TaskState then
                       { pt1 with TaskStatus := true }
                     else pt1
          let evs2 := if pt2.CurrentTask.URI ≠ "" then
                        [Event.log LogLevel.debug, Event.log LogLevel.info]
                      else
                        [Event.log LogLevel.info]
          let r := powerLoop envs interfere T fuel (currenttime + 1) pt2
          { pt := r.pt, currenttime := r.currenttime, result := r.result
            trace := evs1 ++ evs2 ++ r.trace, iterations := r.iterations + 1 }
    else
      { pt := pt, currenttime := currenttime, result := Except.ok ()
        trace := [], iterations := 0 }

/-- Result of `PowerExecutor`: final task value, error result, trace,
final counter value and iterations of the polling loop. -/
structure ExecResult where
  pt : PowerTask
  result : Except GoError Unit
  trace : List Event
  currenttime : Int
  iterations : Nat
deriving Repr

/-- Go `PowerExecutor`: reset the task, launch `SubmitPowerState`
concurrently (its shared-state writes appear as `interfere`), poll the
task status up to `Timeout` times, warn when the counter has exhausted
the bound, and return `nil` unless a poll failed. The target `s` only
reaches the goroutine and log messages. -/
def PowerExecutor (envs : Nat → Env) (interfere : Nat → PowerTask → PowerTask)
    (pt : PowerTask) (s : PowerState) : ExecResult :=
  let _ := s
  let pt1 := ResetTask pt
  let r := powerLoop envs interfere pt1.Timeout pt1.Timeout.toNat 0 pt1
  match r.result with
  | Except.error e =>
    { pt := r.pt, result := Except.error e, trace := r.trace
      currenttime := r.currenttime, iterations := r.iterations }
  | Except.ok _ =>
    let warnEvs := if ¬ (r.currenttime < pt1.Timeout) then
                     [Event.log LogLevel.warn]
                   else []
    { pt := r.pt, result := Except.ok ()
      trace := r.trace ++ warnEvs ++ [Event.log LogLevel.info]
      currenttime := r.currenttime, iterations := r.iterations }

/-! Helper lemmas shared by several claims. -/

theorem restCalls_append (a b : List Event) :
    restCalls (a ++ b) = restCalls a ++ restCalls b := by
  induction a with
  | nil => rfl
  | cons e es ih => cases e <;> simp [restCalls, ih]

/-- Frame property of `GetCurrentPowerState`: whenever it returns (does
not panic), it leaves the current task handle, the completion flag and
the timing parameters untouched and issues no REST call through the
generic transport. -/
theorem getCurrentPowerState_frame (env : Env) (pt : PowerTask)
    (out : PowerTask × Except GoError Unit × List Event)
    (h : GetCurrentPowerState env pt = some out) :
    out.1.CurrentTask = pt.CurrentTask ∧ out.1.TaskStatus = pt.TaskStatus ∧
    out.1.Timeout = pt.Timeout ∧ out.1.WaitTime = pt.WaitTime ∧
    restCalls out.2.2 = [] := by
  unfold GetCurrentPowerState at h
  split at h
  · injection h with h
    subst h
    simp [restCalls]
  · split at h
    · injection h with h
      subst h
      simp [restCalls]
    · split at h
      · exact Option.noConfusion h
      · split at h
        · injection h with h
          subst h
          simp [restCalls]
        · split at h
          · exact Option.noConfusion h
          · split at h
            · injection h with h
              subst h
              simp [restCalls]
            · injection h with h
              subst h
              simp [restCalls]

/-! Claim theorems. -/

/-- C7: for every prior state of a `PowerTask`, `ResetTask` yields
observed state `Unknown`, completion flag `false` and an empty task
handle (URI, name and owner all empty), while leaving the blade
reference, `Timeout` and `WaitTime` unchanged. -/
theorem claim_C7 (pt : PowerTask) :
    (ResetTask pt).State = P_UKNOWN ∧ (ResetTask pt).TaskStatus = false ∧
    (ResetTask pt).CurrentTask.URI = "" ∧
    (ResetTask pt).CurrentTask.Name = "" ∧
    (ResetTask pt).CurrentTask.Owner = "" ∧
    (ResetTask pt).Blade = pt.Blade ∧
    (ResetTask pt).Timeout = pt.Timeout ∧
    (ResetTask pt).WaitTime = pt.WaitTime :=
  ⟨rfl, rfl, rfl, rfl, rfl, rfl, rfl, rfl⟩

/-- C8: on a `PowerTask` whose hardware unit has an empty URI,
`GetCurrentPowerState` fails with the missing-hardware error, setting
the observed state to `Unknown` first; the result does not depend on the
environment and its trace is empty, so no remote lookup or call is
performed. -/
theorem claim_C8 (env : Env) (pt : PowerTask) (h : pt.Blade.URI = "") :
    GetCurrentPowerState env pt =
      some ({ pt with State := P_UKNOWN }, Except.error missingBladeErr, []) := by
  unfold GetCurrentPowerState
  simp [h]

/-- C10: the `String()` renderings of `PowerState` and `PowerControl`
are defined exactly for the three declared constants of each type
(ordinals 1 through 3); they index a fixed three-element table at the
ordinal minus one, and any other ordinal (for example 0 or 4) makes the
lookup fail (out-of-range panic, `none`) rather than return a string. -/
theorem claim_C10 (p : Int) :
    ((PowerState.Str p).isSome ↔ p = 1 ∨ p = 2 ∨ p = 3) ∧
    ((PowerControl.Str p).isSome ↔ p = 1 ∨ p = 2 ∨ p = 3) ∧
    PowerState.Str P_ON = some "On" ∧
    PowerState.Str P_OFF = some "Off" ∧
    PowerState.Str P_UKNOWN = some "UNKNOWN" ∧
    PowerControl.Str P_COLDBOOT = some "ColdBoot" ∧
    PowerControl.Str P_MOMPRESS = some "MomentaryPress" ∧
    PowerControl.Str P_RESET = some "Reset" ∧
    PowerState.Str 0 = none ∧ PowerState.Str 4 = none ∧
    PowerControl.Str 0 = none ∧ PowerControl.Str 4 = none := by
  have key : ∀ (l : List String), l.length = 3 → ∀ q : Int,
      ((if 1 ≤ q then l.get? (q - 1).toNat else none).isSome ↔
        q = 1 ∨ q = 2 ∨ q = 3) := by
    intro l hl q
    split
    · rename_i h1
      rw [Option.isSome_iff_ne_none, ne_eq, List.get?_eq_none, hl]
      omega
    · rename_i h1
      simp only [Option.isSome_none, Bool.false_eq_true, false_iff]
      omega
  refine ⟨key powerstates rfl p, key powercontrols rfl p,
          rfl, rfl, rfl, rfl, rfl, rfl, rfl, rfl, rfl, rfl⟩

/-- C5: with a non-empty blade URI and a successful hardware lookup,
`GetCurrentPowerState` classifies the reported power-state string
totally (it never panics and never errors) into exactly one of `On`,
`Off`, `Unknown` by case-insensitive exact match, and any string not
case-insensitively equal to `On` or `Off` yields `Unknown` together
with an emitted warning. -/
theorem claim_C5 (env : Env) (pt : PowerTask) (b : ServerHardware)
    (hne : pt.Blade.URI ≠ "")
    (hb : env.getServerHardware pt.Blade.URI = Except.ok b) :
    ∃ ptF evs, GetCurrentPowerState env pt = some (ptF, Except.ok (), evs) ∧
      ptF.State =
        (if stringsToUpper b.PowerState = stringsToUpper "Off" then P_OFF
         else if stringsToUpper b.PowerState = stringsToUpper "On" then P_ON
         else P_UKNOWN) ∧
      (ptF.State = P_ON ∨ ptF.State = P_OFF ∨ ptF.State = P_UKNOWN) ∧
      (stringsToUpper b.PowerState ≠ stringsToUpper "Off" →
        stringsToUpper b.PowerState ≠ stringsToUpper "On" →
        ptF.State = P_UKNOWN ∧ Event.log LogLevel.warn ∈ evs) := by
  have hOff : PowerState.Equal P_OFF b.PowerState =
      some (stringsToUpper b.PowerState == stringsToUpper "Off") := rfl
  have hOn : PowerState.Equal P_ON b.PowerState =
      some (stringsToUpper b.PowerState == stringsToUpper "On") := rfl
  by_cases h1 : stringsToUpper b.PowerState = stringsToUpper "Off"
  · refine ⟨{ pt with State := P_OFF, Blade := b }, [Event.log LogLevel.debug],
      ?_, by rw [if_pos h1], by simp, fun hno _ => absurd h1 hno⟩
    unfold GetCurrentPowerState
    rw [if_neg hne]
    simp [hb, hOff, h1]
  · by_cases h2 : stringsToUpper b.PowerState = stringsToUpper "On"
    · refine ⟨{ pt with State := P_ON, Blade := b }, [Event.log LogLevel.debug],
        ?_, by rw [if_neg h1, if_pos h2], by simp, fun _ hno => absurd h2 hno⟩
      unfold GetCurrentPowerState
      rw [if_neg hne]
      simp [hb, hOff, hOn, h1, h2]
      decide
    · refine ⟨{ pt with State := P_UKNOWN, Blade := b },
        [Event.log LogLevel.debug, Event.log LogLevel.warn],
        ?_, by rw [if_neg h1, if_neg h2], by simp, fun _ _ => ⟨rfl, by simp⟩⟩
      unfold GetCurrentPowerState
      rw [if_neg hne]
      simp [hb, hOff, hOn, h1, h2]

/-- C9: with an empty current-task URI, `GetCurrentTaskStatus` is a
no-op up to two debug log lines: it performs no REST call, leaves the
task unchanged and returns no error. With a non-empty URI it issues a
GET against that URI, propagates a transport error with the task
unchanged, propagates a decode error, and on success replaces the task
handle with the decoded one. -/
theorem claim_C9 (env : Env) (pt : PowerTask) :
    (pt.CurrentTask.URI = "" →
      GetCurrentTaskStatus env pt =
        (pt, Except.ok (),
         [Event.log LogLevel.debug, Event.log LogLevel.debug])) ∧
    (pt.CurrentTask.URI ≠ "" →
      ((RestMethod.GET, pt.CurrentTask.URI, none) ∈
          restCalls (GetCurrentTaskStatus env pt).2.2 ∧
        (∀ e, env.restAPICall RestMethod.GET pt.CurrentTask.URI none =
          Except.error e →
          (GetCurrentTaskStatus env pt).2.1 = Except.error e ∧
          (GetCurrentTaskStatus env pt).1 = pt) ∧
        (∀ data e, env.restAPICall RestMethod.GET pt.CurrentTask.URI none =
          Except.ok data →
          env.unmarshalTask data pt.CurrentTask = Except.error e →
          (GetCurrentTaskStatus env pt).2.1 = Except.error e ∧
          (GetCurrentTaskStatus env pt).1 = pt) ∧
        (∀ data t, env.restAPICall RestMethod.GET pt.CurrentTask.URI none =
          Except.ok data →
          env.unmarshalTask data pt.CurrentTask = Except.ok t →
          GetCurrentTaskStatus env pt =
            ({ pt with CurrentTask := t }, Except.ok (),
             [Event.log LogLevel.debug,
              Event.rest RestMethod.GET pt.CurrentTask.URI none,
              Event.log LogLevel.debug])))) := by
  constructor
  · intro h
    unfold GetCurrentTaskStatus
    simp [h]
  · intro h
    refine ⟨?_, ?_, ?_, ?_⟩
    · unfold GetCurrentTaskStatus
      rw [if_pos h]
      rcases hr : env.restAPICall RestMethod.GET pt.CurrentTask.URI none with e | data
      · simp [hr, restCalls]
      · rcases hu : env.unmarshalTask data pt.CurrentTask with e | t <;>
          simp [hr, hu, restCalls]
    · intro e he
      unfold GetCurrentTaskStatus
      rw [if_pos h]
      simp [he]
    · intro data e hd hu
      unfold GetCurrentTaskStatus
      rw [if_pos h]
      simp [hd, hu]
    · intro data t hd hu
      unfold GetCurrentTaskStatus
      rw [if_pos h]
      simp [hd, hu]

theorem stringJoin_pair (a b : String) : String.join [a, b] = a ++ b := by
  simp [String.join]

/-- C1: when the freshly observed power state already equals the
requested target, `SubmitPowerState` issues no REST call at all (in
particular no PUT), sets the completion flag, and leaves the task
handle empty; resubmitting an already-satisfied state is a no-op. -/
theorem claim_C1 (env : Env) (pt pt1 : PowerTask) (s : PowerState)
    (evs : List Event)
    (hq : GetCurrentPowerState env pt = some (pt1, Except.ok (), evs))
    (hs : pt1.State = s)
    (hemp : pt.CurrentTask = emptyTask) :
    SubmitPowerState env pt s =
      some ({ pt1 with TaskStatus := true }, evs ++ [Event.log LogLevel.info]) ∧
    restCalls (evs ++ [Event.log LogLevel.info]) = [] ∧
    ({ pt1 with TaskStatus := true } : PowerTask).CurrentTask = emptyTask := by
  obtain ⟨hct, _, _, _, hrc⟩ := getCurrentPowerState_frame env pt _ hq
  subst hs
  refine ⟨?_, ?_, ?_⟩
  · unfold SubmitPowerState
    simp [hq]
  · rw [restCalls_append, hrc]
    rfl
  · show pt1.CurrentTask = emptyTask
    rw [hct, hemp]

/-- C6: when the freshly observed state differs from the target `s`,
`SubmitPowerState` issues exactly one REST call: a PUT to the
concatenation of the blade URI and `/powerState` whose body is
`{powerState: s.String(), powerControl: "MomentaryPress"}`. -/
theorem claim_C6 (env : Env) (pt pt1 : PowerTask) (s : PowerState)
    (sStr : String) (evs : List Event)
    (hq : GetCurrentPowerState env pt = some (pt1, Except.ok (), evs))
    (hne : s ≠ pt1.State)
    (hstr : PowerState.Str s = some sStr) :
    ∃ ptF evsF, SubmitPowerState env pt s = some (ptF, evsF) ∧
      restCalls evsF =
        [(RestMethod.PUT, pt1.Blade.URI ++ "/powerState",
          some { PowerState := sStr, PowerControl := "MomentaryPress" })] := by
  obtain ⟨-, -, -, -, hrc⟩ := getCurrentPowerState_frame env pt _ hq
  unfold SubmitPowerState
  simp only [hq]
  rw [if_pos hne]
  simp only [hstr, stringJoin_pair]
  have hpc : PowerControl.Str P_MOMPRESS = some "MomentaryPress" := rfl
  rw [hpc]
  have hrc2 : restCalls evs = [] := hrc
  rcases hr : env.restAPICall RestMethod.PUT (pt1.Blade.URI ++ "/powerState")
      (some { PowerState := sStr, PowerControl := "MomentaryPress" }) with e | data
  · simp only [hr]
    exact ⟨_, _, rfl, by simp [restCalls_append, restCalls, hrc2]⟩
  · rcases hu : env.unmarshalTask data pt1.CurrentTask with e | t
    · simp only [hr, hu]
      exact ⟨_, _, rfl, by simp [restCalls_append, restCalls, hrc2]⟩
    · simp only [hr, hu]
      exact ⟨_, _, rfl, by simp [restCalls_append, restCalls, hrc2]⟩

/-- C4: when the PUT change request fails in transport, or its response
fails to decode, `SubmitPowerState` sets the completion flag, logs an
error, and still returns normally — it has no error result, so nothing
is propagated to the caller. -/
theorem claim_C4 (env : Env) (pt pt1 : PowerTask) (s : PowerState)
    (sStr : String) (evs : List Event)
    (hq : GetCurrentPowerState env pt = some (pt1, Except.ok (), evs))
    (hne : s ≠ pt1.State)
    (hstr : PowerState.Str s = some sStr)
    (hfail :
      (∃ e, env.restAPICall RestMethod.PUT (pt1.Blade.URI ++ "/powerState")
          (some { PowerState := sStr, PowerControl := "MomentaryPress" }) =
        Except.error e) ∨
      (∃ data e, env.restAPICall RestMethod.PUT (pt1.Blade.URI ++ "/powerState")
          (some { PowerState := sStr, PowerControl := "MomentaryPress" }) =
        Except.ok data ∧
        env.unmarshalTask data pt1.CurrentTask = Except.error e)) :
    ∃ ptF evsF, SubmitPowerState env pt s = some (ptF, evsF) ∧
      ptF.TaskStatus = true ∧ Event.log LogLevel.error ∈ evsF := by
  unfold SubmitPowerState
  simp only [hq]
  rw [if_pos hne]
  simp only [hstr, stringJoin_pair]
  have hpc : PowerControl.Str P_MOMPRESS = some "MomentaryPress" := rfl
  rw [hpc]
  rcases hfail with ⟨e, he⟩ | ⟨data, e, hd, hu⟩
  · simp only [he]
    exact ⟨_, _, rfl, rfl, by simp⟩
  · simp only [hd, hu]
    exact ⟨_, _, rfl, rfl, by simp⟩

/-! Witness fixtures: concrete hardware units, environments and tasks. -/

def wBladeOn : ServerHardware :=
  { URI := "hw1", Name := "bay1", SerialNumber := "sn1", PowerState := "On" }

def wBladeNoURI : ServerHardware :=
  { URI := "", Name := "bay0", SerialNumber := "sn0", PowerState := "On" }

def wEnvOn : Env :=
  { getServerHardware := fun _ => Except.ok wBladeOn
    restAPICall := fun _ _ _ => Except.ok "raw"
    unmarshalTask := fun _ t => Except.ok t }

def wPT : PowerTask := NewPowerTask wBladeOn

def wPTempty : PowerTask := NewPowerTask wBladeNoURI

/-- Witness for C8 at a concrete unit with an empty URI. -/
theorem claim_C8_witness :
    wPTempty.Blade.URI = "" ∧
    GetCurrentPowerState wEnvOn wPTempty =
      some ({ wPTempty with State := P_UKNOWN },
            Except.error missingBladeErr, []) :=
  ⟨rfl, claim_C8 wEnvOn wPTempty rfl⟩

/-- The value `GetCurrentPowerState` produces for `wPT` under an
environment whose lookup reports power string `On`. -/
def wPT1 : PowerTask := { wPT with State := P_ON, Blade := wBladeOn }

def wBladeBogus : ServerHardware :=
  { URI := "hw2", Name := "bay2", SerialNumber := "sn2"
    PowerState := "Restarting" }

def wEnvBogus : Env :=
  { getServerHardware := fun _ => Except.ok wBladeBogus
    restAPICall := fun _ _ _ => Except.ok "raw"
    unmarshalTask := fun _ t => Except.ok t }

def wEnvPutFail : Env :=
  { getServerHardware := fun _ => Except.ok wBladeOn
    restAPICall := fun _ _ _ => Except.error "put failed"
    unmarshalTask := fun _ t => Except.ok t }

def wEnvGetFail : Env :=
  { getServerHardware := fun _ => Except.ok wBladeOn
    restAPICall := fun _ _ _ => Except.error "boom"
    unmarshalTask := fun _ t => Except.ok t }

def wTask : Task :=
  { URI := "task9", Name := "n", Owner := "o", TaskState := "Running"
    TaskStatus := "st", ComputedPercentComplete := 10 }

def wPTtask : PowerTask := { wPT with CurrentTask := wTask }

/-- Witness for C1: a unit already reporting `On` when `On` is
requested; submission sets the flag and issues nothing. -/
theorem claim_C1_witness :
    SubmitPowerState wEnvOn wPT P_ON =
      some ({ wPT1 with TaskStatus := true },
            [Event.log LogLevel.debug, Event.log LogLevel.info]) ∧
    ({ wPT1 with TaskStatus := true } : PowerTask).CurrentTask = emptyTask := by
  obtain ⟨h1, -, h3⟩ :=
    claim_C1 wEnvOn wPT wPT1 P_ON [Event.log LogLevel.debug] rfl rfl rfl
  exact ⟨h1, h3⟩

/-- Witness for C4: the PUT fails in transport; submission still returns
and marks the attempt done. -/
theorem claim_C4_witness :
    ∃ ptF evsF, SubmitPowerState wEnvPutFail wPT P_OFF = some (ptF, evsF) ∧
      ptF.TaskStatus = true ∧ Event.log LogLevel.error ∈ evsF :=
  claim_C4 wEnvPutFail wPT wPT1 P_OFF "Off" [Event.log LogLevel.debug]
    rfl (by decide) rfl (Or.inl ⟨"put failed", rfl⟩)

/-- Witness for C5: a unit reporting the unclassifiable string
`Restarting` is classified `Unknown` with a warning. -/
theorem claim_C5_witness :
    ∃ ptF evs, GetCurrentPowerState wEnvBogus wPT =
        some (ptF, Except.ok (), evs) ∧
      ptF.State = P_UKNOWN ∧ Event.log LogLevel.warn ∈ evs := by
  obtain ⟨ptF, evs, heq, -, -, hunk⟩ :=
    claim_C5 wEnvBogus wPT wBladeBogus (by decide) rfl
  exact ⟨ptF, evs, heq, (hunk (by decide) (by decide)).1,
         (hunk (by decide) (by decide)).2⟩

/-- Witness for C6: a unit reporting `On` asked to power `Off` issues
exactly one PUT with the expected body. -/
theorem claim_C6_witness :
    ∃ ptF evsF, SubmitPowerState wEnvOn wPT P_OFF = some (ptF, evsF) ∧
      restCalls evsF =
        [(RestMethod.PUT, wPT1.Blade.URI ++ "/powerState",
          some { PowerState := "Off", PowerControl := "MomentaryPress" })] :=
  claim_C6 wEnvOn wPT wPT1 P_OFF "Off" [Event.log LogLevel.debug]
    rfl (by decide) rfl

/-- A poll never emits a warning: only the timeout path after the loop
of the executor does. -/
theorem getCurrentTaskStatus_noWarn (env : Env) (pt : PowerTask) :
    Event.log LogLevel.warn ∉ (GetCurrentTaskStatus env pt).2.2 := by
  simp only [GetCurrentTaskStatus]
  split
  · split
    · simp
    · split <;> simp
  · simp

/-- The loop body enters at most `fuel` iterations. -/
theorem powerLoop_iterations_le_fuel (envs : Nat → Env)
    (interfere : Nat → PowerTask → PowerTask) (T : Int) :
    ∀ fuel ct pt,
      (powerLoop envs interfere T fuel ct pt).iterations ≤ fuel := by
  intro fuel
  induction fuel with
  | zero =>
    intro ct pt
    rw [powerLoop]
    split
    · exact Nat.le_refl 0
    · exact Nat.le_refl 0
  | succ n ih =>
    intro ct pt
    rw [powerLoop]
    split
    · split
      · exact Nat.succ_le_succ (Nat.zero_le n)
      · exact Nat.succ_le_succ (ih _ _)
    · exact Nat.zero_le _

/-- The loop counter never passes the bound `T`, provided it starts at
or below it. -/
theorem powerLoop_currenttime_le (envs : Nat → Env)
    (interfere : Nat → PowerTask → PowerTask) (T : Int) :
    ∀ fuel ct pt, ct ≤ T →
      (powerLoop envs interfere T fuel ct pt).currenttime ≤ T := by
  intro fuel
  induction fuel with
  | zero =>
    intro ct pt hct
    rw [powerLoop]
    split
    · exact hct
    · exact hct
  | succ n ih =>
    intro ct pt hct
    rw [powerLoop]
    split
    · rename_i hcond
      split
      · exact hct
      · exact ih _ _ (by omega)
    · exact hct

/-- The loop trace never contains a warning. -/
theorem powerLoop_noWarn (envs : Nat → Env)
    (interfere : Nat → PowerTask → PowerTask) (T : Int) :
    ∀ fuel ct pt,
      Event.log LogLevel.warn ∉ (powerLoop envs interfere T fuel ct pt).trace := by
  intro fuel
  induction fuel with
  | zero =>
    intro ct pt
    rw [powerLoop]
    split
    · simp
    · simp
  | succ n ih =>
    intro ct pt
    rw [powerLoop]
    split
    · split
      · rename_i pt1 e evs1 heq
        have hnw := getCurrentTaskStatus_noWarn (envs ct.toNat)
          (applyInterference (interfere ct.toNat) pt)
        rw [heq] at hnw
        exact hnw
      · rename_i pt1 u evs1 heq
        have hnw := getCurrentTaskStatus_noWarn (envs ct.toNat)
          (applyInterference (interfere ct.toNat) pt)
        rw [heq] at hnw
        simp only [List.mem_append, not_or]
        refine ⟨⟨hnw, ?_⟩, ih _ _⟩
        split <;> split <;> simp
    · simp

/-- Fuel is irrelevant once it covers `(T - currenttime).toNat`: any two
sufficient fuels give the same result. Hence the fuel-exhausted branch
of `powerLoop` is dead code for the call `PowerExecutor` makes (fuel
`T.toNat` from counter `0`), and the embedded loop is exactly the Go
loop. -/
theorem powerLoop_fuel_ge (envs : Nat → Env)
    (interfere : Nat → PowerTask → PowerTask) (T : Int) :
    ∀ fuelA fuelB ct pt, (T - ct).toNat ≤ fuelA → (T - ct).toNat ≤ fuelB →
      powerLoop envs interfere T fuelA ct pt =
        powerLoop envs interfere T fuelB ct pt := by
  intro fuelA
  induction fuelA with
  | zero =>
    intro fuelB ct pt hA hB
    rcases fuelB with _ | m
    · rfl
    · simp only [powerLoop.eq_1, powerLoop.eq_2]
      split
      · rename_i hcond
        exact absurd hcond.2 (by omega)
      · rfl
  | succ n ih =>
    intro fuelB ct pt hA hB
    rcases fuelB with _ | m
    · simp only [powerLoop.eq_1, powerLoop.eq_2]
      split
      · rename_i hcond
        exact absurd hcond.2 (by omega)
      · rfl
    · simp only [powerLoop.eq_1, powerLoop.eq_2]
      split
      · rename_i hcond
        rcases hg : GetCurrentTaskStatus (envs ct.toNat)
            (applyInterference (interfere ct.toNat) pt) with ⟨pt1, r1, evs1⟩
        rcases r1 with e | u
        · rfl
        · dsimp only
          rw [ih m (ct + 1) _ (by omega) (by omega)]
      · rfl

/-- C2 (amended): the timeout warning is emitted exactly when the
executor returns without error and the final loop counter has exhausted
the iteration bound, whether or not the completion flag is set at exit;
whenever the warning is emitted, the executor returns `nil`. -/
theorem claim_C2_amended (envs : Nat → Env)
    (interfere : Nat → PowerTask → PowerTask) (pt : PowerTask)
    (s : PowerState) :
    Event.log LogLevel.warn ∈ (PowerExecutor envs interfere pt s).trace ↔
      ((PowerExecutor envs interfere pt s).result = Except.ok () ∧
       pt.Timeout ≤ (PowerExecutor envs interfere pt s).currenttime) := by
  unfold PowerExecutor
  dsimp only
  have hnw := powerLoop_noWarn envs interfere (ResetTask pt).Timeout
    (ResetTask pt).Timeout.toNat 0 (ResetTask pt)
  rcases hres : (powerLoop envs interfere (ResetTask pt).Timeout
      (ResetTask pt).Timeout.toNat 0 (ResetTask pt)).result with e | u
  · simp only [hres]
    constructor
    · intro hw
      exact absurd hw hnw
    · rintro ⟨hok, -⟩
      exact Except.noConfusion hok
  · simp only [hres]
    have hT : (ResetTask pt).Timeout = pt.Timeout := rfl
    by_cases hc : (powerLoop envs interfere (ResetTask pt).Timeout
        (ResetTask pt).Timeout.toNat 0 (ResetTask pt)).currenttime <
        (ResetTask pt).Timeout
    · rw [if_neg (not_not_intro hc)]
      simp only [List.append_nil, List.mem_append, hT] at *
      constructor
      · rintro (h | h)
        · exact absurd h hnw
        · simp at h
      · rintro ⟨-, hge⟩
        omega
    · rw [if_pos hc]
      simp only [List.mem_append, hT] at *
      constructor
      · intro _
        refine ⟨?_, ?_⟩
        · simp
        · omega
      · intro _
        left
        right
        simp

/-- A normally exiting loop (no poll error) increments the counter
exactly once per entered iteration: the final counter equals the start
plus the number of iterations. -/
theorem powerLoop_count (envs : Nat → Env)
    (interfere : Nat → PowerTask → PowerTask) (T : Int) :
    ∀ fuel ct pt,
      (powerLoop envs interfere T fuel ct pt).result = Except.ok () →
      (powerLoop envs interfere T fuel ct pt).currenttime =
        ct + ((powerLoop envs interfere T fuel ct pt).iterations : Int) := by
  intro fuel
  induction fuel with
  | zero =>
    intro ct pt
    rw [powerLoop]
    split
    · intro _
      dsimp only
      omega
    · intro _
      dsimp only
      omega
  | succ n ih =>
    intro ct pt
    rw [powerLoop]
    split
    · split
      · intro hok
        exact Except.noConfusion hok
      · intro hok
        dsimp only at hok ⊢
        have hih := ih (ct + 1) _ hok
        omega
    · intro _
      dsimp only
      omega

/-- C3: for a nonnegative `Timeout`, the polling loop of
`PowerExecutor` enters at most `Timeout` iterations and the counter,
incremented exactly once per entered iteration (so the final counter
equals the iteration count whenever no poll error aborts the loop),
never passes `Timeout`; the loop always terminates (the embedding is a
total function). -/
theorem claim_C3 (envs : Nat → Env)
    (interfere : Nat → PowerTask → PowerTask) (pt : PowerTask)
    (s : PowerState) (h : 0 ≤ pt.Timeout) :
    (PowerExecutor envs interfere pt s).iterations ≤ pt.Timeout.toNat ∧
    (PowerExecutor envs interfere pt s).currenttime ≤ pt.Timeout ∧
    ((PowerExecutor envs interfere pt s).result = Except.ok () →
      (PowerExecutor envs interfere pt s).currenttime =
        ((PowerExecutor envs interfere pt s).iterations : Int)) := by
  unfold PowerExecutor
  dsimp only
  have h1 := powerLoop_iterations_le_fuel envs interfere (ResetTask pt).Timeout
    (ResetTask pt).Timeout.toNat 0 (ResetTask pt)
  have h2 := powerLoop_currenttime_le envs interfere (ResetTask pt).Timeout
    (ResetTask pt).Timeout.toNat 0 (ResetTask pt) h
  have h3 := powerLoop_count envs interfere (ResetTask pt).Timeout
    (ResetTask pt).Timeout.toNat 0 (ResetTask pt)
  rcases hres : (powerLoop envs interfere (ResetTask pt).Timeout
      (ResetTask pt).Timeout.toNat 0 (ResetTask pt)).result with e | u
  · simp only [hres]
    exact ⟨h1, h2, fun hok => Except.noConfusion hok⟩
  · simp only [hres]
    refine ⟨h1, h2, fun _ => ?_⟩
    have := h3 (by rw [hres])
    omega

/-- Witness for C3 at a concrete task with the default timeout. -/
theorem claim_C3_witness :
    0 ≤ wPT.Timeout ∧
    (PowerExecutor (fun _ => wEnvOn) (fun _ q => q) wPT P_ON).iterations ≤
      wPT.Timeout.toNat ∧
    (PowerExecutor (fun _ => wEnvOn) (fun _ q => q) wPT P_ON).currenttime ≤
      wPT.Timeout := by
  refine ⟨by decide, ?_, ?_⟩
  · exact (claim_C3 (fun _ => wEnvOn) (fun _ q => q) wPT P_ON (by decide)).1
  · exact (claim_C3 (fun _ => wEnvOn) (fun _ q => q) wPT P_ON (by decide)).2.1

/-! Counterexample fixtures for C2: a one-iteration run in which the
remote task completes inside the final permitted iteration, so the loop
exits with the completion flag set AND the counter equal to the bound;
the code still emits the timeout warning. -/

def cexBlade : ServerHardware :=
  { URI := "hwX", Name := "bayX", SerialNumber := "snX", PowerState := "On" }

def cexTask : Task :=
  { URI := "tu", Name := "", Owner := "", TaskState := "Completed"
    TaskStatus := "", ComputedPercentComplete := 100 }

def cexEnv : Env :=
  { getServerHardware := fun _ => Except.ok cexBlade
    restAPICall := fun _ _ _ => Except.ok "raw"
    unmarshalTask := fun _ t => Except.ok t }

/-- The concurrent submission hands the loop a completed remote task. -/
def cexInterfere : Nat → PowerTask → PowerTask :=
  fun _ pt => { pt with CurrentTask := cexTask }

def cexPT : PowerTask :=
  { Blade := cexBlade, State := P_UKNOWN, TaskStatus := false
    CurrentTask := emptyTask, Timeout := 1, WaitTime := 10 }

/-- C2 as stated is false: at this concrete input the loop exits with
the completion flag already true (the task completed during the last
permitted iteration), so it does not exit "because the iteration bound
was reached while the done flag is still false" — yet the timeout
warning IS emitted (and the executor returns without error). -/
theorem claim_C2_counterexample :
    Event.log LogLevel.warn ∈
        (PowerExecutor (fun _ => cexEnv) cexInterfere cexPT P_ON).trace ∧
    (PowerExecutor (fun _ => cexEnv) cexInterfere cexPT P_ON).pt.TaskStatus =
      true ∧
    (PowerExecutor (fun _ => cexEnv) cexInterfere cexPT P_ON).result =
      Except.ok () ∧
    (PowerExecutor (fun _ => cexEnv) cexInterfere cexPT P_ON).currenttime =
      cexPT.Timeout := by
  refine ⟨by decide, rfl, rfl, rfl⟩

/-- Witness for C9: polling with an empty task URI is a no-op, and a
transport failure on a non-empty task URI is propagated unchanged. -/
theorem claim_C9_witness :
    (GetCurrentTaskStatus wEnvOn wPT =
      (wPT, Except.ok (),
       [Event.log LogLevel.debug, Event.log LogLevel.debug])) ∧
    (GetCurrentTaskStatus wEnvGetFail wPTtask).2.1 = Except.error "boom" ∧
    (GetCurrentTaskStatus wEnvGetFail wPTtask).1 = wPTtask := by
  refine ⟨(claim_C9 wEnvOn wPT).1 rfl, ?_, ?_⟩
  · exact (((claim_C9 wEnvGetFail wPTtask).2 (by decide)).2.1 "boom" rfl).1
  · exact (((claim_C9 wEnvGetFail wPTtask).2 (by decide)).2.1 "boom" rfl).2

end OV
